import Mathlib

/-!
Verification of the scheduling and exactly-once-delivery engine of the
"Mensageiro da Rosacruz Áurea" application (src/app.py).

The Python source is shallowly embedded: the persisted control record
becomes the structure `Control`, the file-backed load/save pair becomes
explicit state threading (the threaded `Control` value is the persisted
record; an explicit `saves` trace records each `save_control` call), and
the scheduler's infinite `while True` loop is modelled by its body, one
tick (`scheduler_tick`), iterated explicitly (`run_ticks`).  External
collaborators (Claude generation, Pushover delivery, the Streamlit
session) are modelled as oracles at their interface boundary.
-/

namespace Rosacruz

/-- The persisted control record `{"date": ..., "sent": [...], "random_times": [...]}`
(CONTROL_FILE contents, well-formed case).  `date = none` models JSON `null`. -/
structure Control where
  date : Option String
  sent : List String
  random_times : List (Nat × Nat)
deriving DecidableEq

/-- Result of one `mark_as_sent` call: the returned Bool, the persisted
store afterwards, and the list of `save_control` invocations it performed. -/
structure MarkResult where
  claimed : Bool
  store : Control
  saves : List Control
deriving DecidableEq

/-- Model of `mark_as_sent` (src/app.py lines 61-72): under THREAD_LOCK, load the
control record; if `key` is already in `sent`, return False without saving;
otherwise append `key` to `sent`, save, and return True. -/
def mark_as_sent (key : String) (store : Control) : MarkResult :=
  if key ∈ store.sent then
    ⟨false, store, []⟩
  else
    let c : Control := { store with sent := store.sent ++ [key] }
    ⟨true, c, [c]⟩

/-- A sequence of `mark_as_sent` calls within one day (no rollover in
between), returning each call's key with the Bool it returned. -/
def claimSeq (store : Control) : List String → List (String × Bool)
  | [] => []
  | k :: ks =>
    let r := mark_as_sent k store
    (k, r.claimed) :: claimSeq r.store ks

/-- Number of calls for key `k` in a call/result trace that returned True. -/
def trueClaims (k : String) (l : List (String × Bool)) : Nat :=
  (l.filter (fun p => p.1 == k && p.2)).length

theorem mark_as_sent_sent_mono (key m : String) (store : Control)
    (h : m ∈ store.sent) : m ∈ (mark_as_sent key store).store.sent := by
  unfold mark_as_sent
  by_cases hk : key ∈ store.sent <;> simp [hk, h]

theorem mark_as_sent_mem_self (key : String) (store : Control) :
    key ∈ (mark_as_sent key store).store.sent := by
  unfold mark_as_sent
  by_cases hk : key ∈ store.sent <;> simp [hk]

theorem mark_as_sent_claimed_iff (key : String) (store : Control) :
    (mark_as_sent key store).claimed = true ↔ key ∉ store.sent := by
  unfold mark_as_sent
  by_cases hk : key ∈ store.sent <;> simp [hk]

theorem trueClaims_cons (k j : String) (b : Bool) (l : List (String × Bool)) :
    trueClaims k ((j, b) :: l) =
      trueClaims k l + (if j = k ∧ b = true then 1 else 0) := by
  simp only [trueClaims, List.filter_cons]
  by_cases h : j = k
  · subst h
    by_cases hb : b = true
    · simp [hb]
    · simp [hb]
  · have hbeq : (j == k) = false := by simp [h]
    simp [hbeq, h]

theorem claimSeq_zero_of_mem (k : String) (ks : List String) :
    ∀ store : Control, k ∈ store.sent → trueClaims k (claimSeq store ks) = 0 := by
  induction ks with
  | nil => intro store _; rfl
  | cons j ks ih =>
    intro store hmem
    rw [claimSeq, trueClaims_cons]
    have hrest := ih (mark_as_sent j store).store (mark_as_sent_sent_mono j k store hmem)
    by_cases hjk : j = k
    · subst hjk
      have hc : (mark_as_sent j store).claimed = false := by
        unfold mark_as_sent; simp [hmem]
      simp [hc, hrest]
    · simp [hjk, hrest]

theorem claimSeq_le_one (k : String) (ks : List String) :
    ∀ store : Control, trueClaims k (claimSeq store ks) ≤ 1 := by
  induction ks with
  | nil => intro store; simp [claimSeq, trueClaims]
  | cons j ks ih =>
    intro store
    rw [claimSeq, trueClaims_cons]
    by_cases hjk : j = k
    · subst hjk
      have hrest : trueClaims j (claimSeq (mark_as_sent j store).store ks) = 0 :=
        claimSeq_zero_of_mem j ks (mark_as_sent j store).store
          (mark_as_sent_mem_self j store)
      simp [hrest]
      split <;> omega
    · have hrest := ih (mark_as_sent j store).store
      simp [hjk]
      exact hrest

theorem claimSeq_exaclty_one (k : String) (ks : List String) :
    ∀ store : Control, k ∉ store.sent →
      trueClaims k (claimSeq store ks) = if k ∈ ks then 1 else 0 := by
  induction ks with
  | nil => intro store _; simp [claimSeq, trueClaims]
  | cons j ks ih =>
    intro store hmem
    rw [claimSeq, trueClaims_cons]
    by_cases hjk : j = k
    · subst hjk
      have hc : (mark_as_sent j store).claimed = true := by
        unfold mark_as_sent; simp [hmem]
      have hrest : trueClaims j (claimSeq (mark_as_sent j store).store ks) = 0 :=
        claimSeq_zero_of_mem j ks (mark_as_sent j store).store
          (mark_as_sent_mem_self j store)
      simp [hc, hrest]
    · have hkj : ¬k = j := fun h => hjk h.symm
      have hmem2 : k ∉ (mark_as_sent j store).store.sent := by
        unfold mark_as_sent
        by_cases hj : j ∈ store.sent <;> simp [hj, hmem, hkj]
      have hrest := ih (mark_as_sent j store).store hmem2
      simp [hjk, hkj, hrest]

/-- C1: within a single day (no day rollover between the calls), for every
key `k` and every sequence of `mark_as_sent` calls starting from any
control state, at most one call for `k` returns True; and when `k` is not
yet in `sent`, the calls for `k` return True exactly once (the first one),
so no two calls for the same key both return true. -/
theorem mark_as_sent_exactly_once_per_day (store : Control) (ks : List String)
    (k : String) (h : k ∉ store.sent) :
    trueClaims k (claimSeq store ks) ≤ 1 ∧
    trueClaims k (claimSeq store ks) = if k ∈ ks then 1 else 0 :=
  ⟨claimSeq_le_one k ks store, claimSeq_exaclty_one k ks store h⟩

/-- Witness for C1 at a concrete input: starting from the empty day state,
the call sequence [a, b, a, a] claims `a` exactly once. -/
theorem mark_as_sent_exactly_once_per_day_witness :
    (("fixed_8_0" : String) ∉ (Control.mk (some ("2024-01-01")) [] []).sent) ∧
    trueClaims ("fixed_8_0")
      (claimSeq (Control.mk (some ("2024-01-01")) [] [])
        [("fixed_8_0"), ("fixed_12_0"), ("fixed_8_0"), ("fixed_8_0")]) ≤ 1 ∧
    trueClaims ("fixed_8_0")
      (claimSeq (Control.mk (some ("2024-01-01")) [] [])
        [("fixed_8_0"), ("fixed_12_0"), ("fixed_8_0"), ("fixed_8_0")]) =
      if ("fixed_8_0" : String) ∈
          [("fixed_8_0"), ("fixed_12_0"), ("fixed_8_0"), ("fixed_8_0")] then 1 else 0 :=
  ⟨by decide,
   (mark_as_sent_exactly_once_per_day _ _ _ (by decide)).1,
   (mark_as_sent_exactly_once_per_day _ _ _ (by decide)).2⟩

/-- C9: when `mark_as_sent` returns False (key already claimed), the
persisted control record is unchanged and no `save_control` call occurs. -/
theorem mark_as_sent_refusal_frame (key : String) (store : Control)
    (h : (mark_as_sent key store).claimed = false) :
    (mark_as_sent key store).store = store ∧ (mark_as_sent key store).saves = [] := by
  unfold mark_as_sent at h ⊢
  by_cases hk : key ∈ store.sent
  · simp [hk]
  · simp [hk] at h

/-- Witness for C9 at a concrete input: re-claiming an already-sent key
leaves the store untouched and performs no save. -/
theorem mark_as_sent_refusal_frame_witness :
    ((mark_as_sent ("fixed_8_0")
        (Control.mk (some ("2024-01-01")) [("fixed_8_0")] [(9, 30)])).claimed = false) ∧
    (mark_as_sent ("fixed_8_0")
        (Control.mk (some ("2024-01-01")) [("fixed_8_0")] [(9, 30)])).store =
      Control.mk (some ("2024-01-01")) [("fixed_8_0")] [(9, 30)] ∧
    (mark_as_sent ("fixed_8_0")
        (Control.mk (some ("2024-01-01")) [("fixed_8_0")] [(9, 30)])).saves = [] :=
  ⟨by decide,
   (mark_as_sent_refusal_frame _ _ (by decide)).1,
   (mark_as_sent_refusal_frame _ _ (by decide)).2⟩

/-- One entry of `FIXED_SCHEDULES` (src/app.py lines 82-86). -/
structure FixedSchedule where
  time : Nat × Nat
  sanctuary : String
  theme : String
deriving DecidableEq

/-- The three build-time fixed schedules (src/app.py lines 82-86). -/
def FIXED_SCHEDULES : List FixedSchedule :=
  [⟨(8, 0), ("cabeça"), ("intenção")⟩,
   ⟨(12, 0), ("pélvis"), ("renovação")⟩,
   ⟨(20, 0), ("coração"), ("reflexão")⟩]

/-- The two random windows `(start_h, start_m, end_h, end_m)`
(src/app.py lines 89-92). -/
def RANDOM_WINDOWS : List (Nat × Nat × Nat × Nat) :=
  [(9, 0, 10, 59), (14, 0, 18, 59)]

/-- The contract of Python's `random.randint(lo, hi)`: the draw lies in
`[lo, hi]` inclusive.  The generator itself is an oracle parameter. -/
def RandintSpec (randint : Nat → Nat → Nat) : Prop :=
  ∀ lo hi, lo ≤ hi → lo ≤ randint lo hi ∧ randint lo hi ≤ hi

/-- Model of `generate_random_times_for_today` (src/app.py lines 340-350): for each
window, draw `rand_minutes = randint(total_start, total_end)` and append
`(rand_minutes // 60, rand_minutes % 60)`. -/
def generate_random_times_for_today (randint : Nat → Nat → Nat) : List (Nat × Nat) :=
  RANDOM_WINDOWS.foldl
    (fun times w =>
      let total_start := w.1 * 60 + w.2.1
      let total_end := w.2.2.1 * 60 + w.2.2.2
      let rand_minutes := randint total_start total_end
      times ++ [(rand_minutes / 60, rand_minutes % 60)])
    []

/-- The day-rollover step at the top of `scheduler_loop` (src/app.py lines
366-377): under THREAD_LOCK, if the stored date differs from today, replace
the state with a fresh record for today; otherwise leave it alone.  This is
the spec's `ensureToday`. -/
def ensureToday (randint : Nat → Nat → Nat) (today_str : String)
    (control : Control) : Control :=
  if control.date ≠ some today_str then
    { date := some today_str, sent := [],
      random_times := generate_random_times_for_today randint }
  else control

def minutesOfTime (t : Nat × Nat) : Nat := t.1 * 60 + t.2

def windowStartMinutes (w : Nat × Nat × Nat × Nat) : Nat := w.1 * 60 + w.2.1

def windowEndMinutes (w : Nat × Nat × Nat × Nat) : Nat := w.2.2.1 * 60 + w.2.2.2

/-- A generated `(hour, minute)` pair lies within a window's
`[startMinutes, endMinutes]` range, inclusive. -/
def timeInWindow (t : Nat × Nat) (w : Nat × Nat × Nat × Nat) : Prop :=
  windowStartMinutes w ≤ minutesOfTime t ∧ minutesOfTime t ≤ windowEndMinutes w

theorem generate_random_times_eval (randint : Nat → Nat → Nat) :
    generate_random_times_for_today randint =
      [(randint 540 659 / 60, randint 540 659 % 60),
       (randint 840 1139 / 60, randint 840 1139 % 60)] := rfl

/-- C2: when the stored date differs from today, one pass of the rollover
step replaces the state with `{date := today, sent := [], random_times :=
one pair per configured window}`, each pair lying (in minutes) within its
window's `[startMinutes, endMinutes]` range inclusive. -/
theorem ensureToday_rollover (randint : Nat → Nat → Nat) (hr : RandintSpec randint)
    (today_str : String) (control : Control)
    (hstale : control.date ≠ some today_str) :
    (ensureToday randint today_str control).date = some today_str ∧
    (ensureToday randint today_str control).sent = [] ∧
    List.Forall₂ timeInWindow
      (ensureToday randint today_str control).random_times RANDOM_WINDOWS := by
  have h1 := hr 540 659 (by norm_num)
  have h2 := hr 840 1139 (by norm_num)
  rw [ensureToday, if_pos hstale]
  refine ⟨rfl, rfl, ?_⟩
  rw [generate_random_times_eval]
  refine List.Forall₂.cons ?_ (List.Forall₂.cons ?_ List.Forall₂.nil)
  · simp only [timeInWindow, minutesOfTime, windowStartMinutes, windowEndMinutes]
    have hd := Nat.div_add_mod (randint 540 659) 60
    omega
  · simp only [timeInWindow, minutesOfTime, windowStartMinutes, windowEndMinutes]
    have hd := Nat.div_add_mod (randint 840 1139) 60
    omega

/-- Witness for C2 at a concrete input: rolling over the fresh empty
state with the left-endpoint draw. -/
theorem ensureToday_rollover_witness :
    RandintSpec (fun lo _ => lo) ∧
    ((Control.mk none [] []).date ≠ some ("2024-01-01")) ∧
    (ensureToday (fun lo _ => lo) ("2024-01-01") (Control.mk none [] [])).date =
      some ("2024-01-01") ∧
    (ensureToday (fun lo _ => lo) ("2024-01-01") (Control.mk none [] [])).sent = [] ∧
    List.Forall₂ timeInWindow
      (ensureToday (fun lo _ => lo) ("2024-01-01") (Control.mk none [] [])).random_times
      RANDOM_WINDOWS :=
  ⟨fun lo _ h => ⟨Nat.le_refl lo, h⟩, by decide,
   (ensureToday_rollover _ (fun lo _ h => ⟨Nat.le_refl lo, h⟩) _ _ (by decide)).1,
   (ensureToday_rollover _ (fun lo _ h => ⟨Nat.le_refl lo, h⟩) _ _ (by decide)).2.1,
   (ensureToday_rollover _ (fun lo _ h => ⟨Nat.le_refl lo, h⟩) _ _ (by decide)).2.2⟩

/-- C5: the rollover step is idempotent within a day — when the stored
date already equals today, it leaves the state, and in particular its
`random_times`, completely unchanged (no re-randomization). -/
theorem ensureToday_idempotent (randint : Nat → Nat → Nat) (today_str : String)
    (control : Control) (h : control.date = some today_str) :
    ensureToday randint today_str control = control ∧
    (ensureToday randint today_str control).random_times = control.random_times := by
  have hcond : ¬control.date ≠ some today_str := by simp [h]
  rw [ensureToday, if_neg hcond]
  exact ⟨rfl, rfl⟩

/-- Witness for C5 at a concrete input: a state already stamped with today
survives the rollover check untouched. -/
theorem ensureToday_idempotent_witness :
    ((Control.mk (some ("2024-01-01")) [("fixed_8_0")] [(9, 30), (15, 0)]).date =
      some ("2024-01-01")) ∧
    ensureToday (fun lo _ => lo) ("2024-01-01")
        (Control.mk (some ("2024-01-01")) [("fixed_8_0")] [(9, 30), (15, 0)]) =
      Control.mk (some ("2024-01-01")) [("fixed_8_0")] [(9, 30), (15, 0)] ∧
    (ensureToday (fun lo _ => lo) ("2024-01-01")
        (Control.mk (some ("2024-01-01")) [("fixed_8_0")] [(9, 30), (15, 0)])).random_times =
      [(9, 30), (15, 0)] :=
  ⟨rfl, (ensureToday_idempotent _ _ _ rfl).1, (ensureToday_idempotent _ _ _ rfl).2⟩

/-- A JSON value, as produced by `json.loads`. -/
inductive JVal where
  | jnull : JVal
  | jbool : Bool → JVal
  | jnum : Int → JVal
  | jstr : String → JVal
  | jarr : List JVal → JVal
  | jobj : List (String × JVal) → JVal

/-- Outcome of reading CONTROL_FILE: the file does not exist, reading it
raised, `json.loads` raised, or `json.loads` returned the value `v`. -/
inductive StoreRead where
  | absent : StoreRead
  | ioError : StoreRead
  | unparseable : StoreRead
  | parsed : JVal → StoreRead

/-- The default empty state `{"date": null, "sent": [], "random_times": []}`. -/
def default_control : JVal :=
  .jobj [(("date"), .jnull), (("sent"), .jarr []), (("random_times"), .jarr [])]

/-- Model of `load_control` (src/app.py lines 42-50): try to read and parse
CONTROL_FILE and return whatever `json.loads` produced; on any exception,
or when the file does not exist, return the default empty state.  Totality
of this function is the "never raises" guarantee. -/
def load_control : StoreRead → JVal
  | .parsed v => v
  | _ => default_control

def is_jstr : JVal → Bool
  | .jstr _ => true
  | _ => false

def is_time_pair : JVal → Bool
  | .jarr [.jnum _, .jnum _] => true
  | _ => false

/-- A parsed JSON value is a valid control record when it has the §6
layout: an object whose `date` is a string or null, whose `sent` is an
array of strings, and whose `random_times` is an array of number pairs. -/
def is_valid_record : JVal → Bool
  | .jobj fields =>
    (match fields.lookup ("date") with
     | some .jnull => true
     | some (.jstr _) => true
     | _ => false) &&
    (match fields.lookup ("sent") with
     | some (.jarr l) => l.all is_jstr
     | _ => false) &&
    (match fields.lookup ("random_times") with
     | some (.jarr l) => l.all is_time_pair
     | _ => false)
  | _ => false

/-- Counterexample to C6 as stated: a CONTROL_FILE containing `[]` parses
successfully, is not a valid control record, yet `load_control` returns
the parsed array unchanged instead of the default empty state. -/
theorem load_control_corrupt_not_default :
    is_valid_record (JVal.jarr []) = false ∧
    load_control (StoreRead.parsed (JVal.jarr [])) = JVal.jarr [] ∧
    load_control (StoreRead.parsed (JVal.jarr [])) ≠ default_control :=
  ⟨rfl, rfl, by intro h; exact JVal.noConfusion h⟩

/-- C6 (amended): `load_control` never raises (it is total); it returns
the default empty state exactly in the failure cases of the read-parse
pipeline — file absent, read error, or `json.loads` failure — and returns
any successfully parsed JSON value unchanged, even when that value is not
a well-formed control record. -/
theorem load_control_amended :
    load_control StoreRead.absent = default_control ∧
    load_control StoreRead.ioError = default_control ∧
    load_control StoreRead.unparseable = default_control ∧
    ∀ v : JVal, load_control (StoreRead.parsed v) = v :=
  ⟨rfl, rfl, rfl, fun _ => rfl⟩

/-- Model of the result dict built by `generate_and_send` (src/app.py
lines 331-337); `success` abstracts `pushover_result["success"]`. -/
structure LogEntry where
  timestamp : String
  schedule_type : String
  sanctuary : String
  message : String
  success : Bool
deriving DecidableEq

/-- The fixed slot key `f"fixed_{t[0]}_{t[1]}"` (src/app.py line 384). -/
def fixedKey (t : Nat × Nat) : String :=
  "fixed_" ++ toString t.1 ++ "_" ++ toString t.2

/-- The random slot key `f"random_{rt[0]}_{rt[1]}"` (src/app.py line 403). -/
def randomKey (t : Nat × Nat) : String :=
  "random_" ++ toString t.1 ++ "_" ++ toString t.2

/-- Python `l[-n:]`. -/
def lastN {α : Type} (n : Nat) (l : List α) : List α := l.drop (l.length - n)

/-- The scheduler-path log update (src/app.py lines 391-393 and 409-411):
append the result, then keep `log[-20:]`. -/
def scheduler_log_append (log : List LogEntry) (result : LogEntry) : List LogEntry :=
  lastN 20 (log ++ [result])

/-- The manual-trigger log update (src/app.py line 545):
`st.session_state["log"].append(result)`, with no truncation. -/
def manual_log_append (log : List LogEntry) (result : LogEntry) : List LogEntry :=
  log ++ [result]

/-- The body run for one slot inside a tick (src/app.py lines 385-397 and
404-415): when the slot's clock time matches, attempt `mark_as_sent`; on a
fresh claim invoke generation+delivery, whose outcome is an oracle —
`.ok entry` models a completed `generate_and_send` whose result is appended
to the session log, `.error ()` models an exception anywhere in the body,
swallowed by the surrounding `try/except` with nothing appended.  Neither
outcome touches the control store. -/
def slotBody (deliver : String → Except Unit LogEntry) (key : String) (due : Bool)
    (acc : Control × List LogEntry) : Control × List LogEntry :=
  if due then
    let r := mark_as_sent key acc.1
    if r.claimed then
      match deliver key with
      | .ok entry => (r.store, scheduler_log_append acc.2 entry)
      | .error _ => (r.store, acc.2)
    else (r.store, acc.2)
  else acc

/-- The control-store effect of one slot body: claim the key when due. -/
def claimStep (key : String) (due : Bool) (st : Control) : Control :=
  if due then (mark_as_sent key st).store else st

/-- One iteration of `scheduler_loop` (src/app.py lines 361-426): rollover
check, the loop over the three fixed schedules, then a re-read of the
control record and the loop over today's random times. -/
def scheduler_tick (randint : Nat → Nat → Nat)
    (deliver : String → Except Unit LogEntry) (today_str : String)
    (current_hm : Nat × Nat) (store : Control) (log : List LogEntry) :
    Control × List LogEntry :=
  let control := ensureToday randint today_str store
  let afterFixed := FIXED_SCHEDULES.foldl
    (fun acc schedule =>
      slotBody deliver (fixedKey schedule.time) (current_hm == schedule.time) acc)
    (control, log)
  afterFixed.1.random_times.foldl
    (fun acc rt => slotBody deliver (randomKey rt) (current_hm == rt) acc)
    afterFixed

/-- The scheduler loop run for a finite number of ticks, one per observed
`(today_str, (hour, minute))` pair. -/
def run_ticks (randint : Nat → Nat → Nat)
    (deliver : String → Except Unit LogEntry)
    (inputs : List (String × (Nat × Nat))) (store : Control)
    (log : List LogEntry) : Control × List LogEntry :=
  inputs.foldl
    (fun acc inp => scheduler_tick randint deliver inp.1 inp.2 acc.1 acc.2)
    (store, log)

/-- The pure control-store effect of one tick. -/
def tickControl (randint : Nat → Nat → Nat) (today_str : String)
    (current_hm : Nat × Nat) (store : Control) : Control :=
  let control := ensureToday randint today_str store
  let afterFixed := FIXED_SCHEDULES.foldl
    (fun s schedule => claimStep (fixedKey schedule.time) (current_hm == schedule.time) s)
    control
  afterFixed.random_times.foldl
    (fun s rt => claimStep (randomKey rt) (current_hm == rt) s) afterFixed

theorem slotBody_fst (d : String → Except Unit LogEntry) (key : String) (due : Bool)
    (acc : Control × List LogEntry) :
    (slotBody d key due acc).1 = claimStep key due acc.1 := by
  unfold slotBody claimStep
  cases due with
  | false => rfl
  | true =>
    simp only [if_true]
    cases hc : (mark_as_sent key acc.1).claimed with
    | false => simp [hc]
    | true =>
      simp only [hc, if_true]
      cases d key <;> rfl

theorem foldl_slotBody_fst {α : Type} (d : String → Except Unit LogEntry)
    (keyf : α → String) (duef : α → Bool) (l : List α) :
    ∀ acc : Control × List LogEntry,
      (l.foldl (fun acc x => slotBody d (keyf x) (duef x) acc) acc).1 =
        l.foldl (fun st x => claimStep (keyf x) (duef x) st) acc.1 := by
  induction l with
  | nil => intro acc; rfl
  | cons x xs ih =>
    intro acc
    rw [List.foldl_cons, List.foldl_cons, ih, slotBody_fst]

theorem mark_as_sent_random_times (key : String) (st : Control) :
    (mark_as_sent key st).store.random_times = st.random_times := by
  unfold mark_as_sent
  by_cases hk : key ∈ st.sent <;> simp [hk]

theorem claimStep_sent_mono (key : String) (due : Bool) (m : String) (st : Control)
    (h : m ∈ st.sent) : m ∈ (claimStep key due st).sent := by
  unfold claimStep
  cases due with
  | false => exact h
  | true => exact mark_as_sent_sent_mono key m st h

theorem claimStep_mem_self (key : String) (st : Control) :
    key ∈ (claimStep key true st).sent := mark_as_sent_mem_self key st

theorem claimStep_random_times (key : String) (due : Bool) (st : Control) :
    (claimStep key due st).random_times = st.random_times := by
  unfold claimStep
  cases due with
  | false => rfl
  | true => exact mark_as_sent_random_times key st

theorem foldl_claimStep_mono {α : Type} (keyf : α → String) (duef : α → Bool)
    (l : List α) : ∀ (st : Control) (m : String), m ∈ st.sent →
      m ∈ (l.foldl (fun st x => claimStep (keyf x) (duef x) st) st).sent := by
  induction l with
  | nil => intro st m h; exact h
  | cons x xs ih =>
    intro st m h
    rw [List.foldl_cons]
    exact ih _ m (claimStep_sent_mono _ _ m st h)

theorem foldl_claimStep_mem {α : Type} (keyf : α → String) (duef : α → Bool)
    (l : List α) : ∀ (st : Control) (x : α), x ∈ l → duef x = true →
      keyf x ∈ (l.foldl (fun st x => claimStep (keyf x) (duef x) st) st).sent := by
  induction l with
  | nil => intro st x hx; exact absurd hx (List.not_mem_nil x)
  | cons y ys ih =>
    intro st x hx hdue
    rw [List.foldl_cons]
    rcases List.mem_cons.mp hx with h | h
    · subst h
      rw [hdue]
      exact foldl_claimStep_mono keyf duef ys _ _ (claimStep_mem_self _ _)
    · exact ih _ x h hdue

theorem foldl_claimStep_random_times {α : Type} (keyf : α → String) (duef : α → Bool)
    (l : List α) : ∀ st : Control,
      (l.foldl (fun st x => claimStep (keyf x) (duef x) st) st).random_times =
        st.random_times := by
  induction l with
  | nil => intro st; rfl
  | cons x xs ih =>
    intro st
    rw [List.foldl_cons, ih, claimStep_random_times]

theorem scheduler_tick_fst (randint : Nat → Nat → Nat)
    (d : String → Except Unit LogEntry) (today_str : String)
    (current_hm : Nat × Nat) (store : Control) (log : List LogEntry) :
    (scheduler_tick randint d today_str current_hm store log).1 =
      tickControl randint today_str current_hm store := by
  simp only [scheduler_tick, tickControl]
  rw [foldl_slotBody_fst d randomKey (fun rt => current_hm == rt)]
  rw [foldl_slotBody_fst d (fun s : FixedSchedule => fixedKey s.time)
    (fun s => current_hm == s.time)]

theorem run_ticks_fst (randint : Nat → Nat → Nat)
    (d : String → Except Unit LogEntry) (inputs : List (String × (Nat × Nat))) :
    ∀ (store : Control) (log : List LogEntry),
      (run_ticks randint d inputs store log).1 =
        inputs.foldl (fun s inp => tickControl randint inp.1 inp.2 s) store := by
  induction inputs with
  | nil => intro store log; rfl
  | cons i is ih =>
    intro store log
    simp only [run_ticks, List.foldl_cons]
    have h1 : (List.foldl
        (fun acc inp => scheduler_tick randint d inp.1 inp.2 acc.1 acc.2)
        (scheduler_tick randint d i.1 i.2 store log) is).1 =
        (run_ticks randint d is (scheduler_tick randint d i.1 i.2 store log).1
          (scheduler_tick randint d i.1 i.2 store log).2).1 := rfl
    rw [h1, ih, scheduler_tick_fst]

/-- C4: once a slot is claimed (`mark_as_sent` returned True), the slot
body leaves the key in `sent` whatever the delivery oracle does — in
particular when generation or delivery fails — so a second `mark_as_sent`
the same day returns False, and no key already in `sent` is removed. -/
theorem claimed_slot_stays_consumed (deliver : String → Except Unit LogEntry)
    (key : String) (store : Control) (log : List LogEntry)
    (h : (mark_as_sent key store).claimed = true) :
    key ∈ (slotBody deliver key true (store, log)).1.sent ∧
    (mark_as_sent key (slotBody deliver key true (store, log)).1).claimed = false ∧
    ∀ m ∈ store.sent, m ∈ (slotBody deliver key true (store, log)).1.sent := by
  have hfst : (slotBody deliver key true (store, log)).1 = (mark_as_sent key store).store := by
    rw [slotBody_fst]; rfl
  rw [hfst]
  have hmem := mark_as_sent_mem_self key store
  refine ⟨hmem, ?_, fun m hm => mark_as_sent_sent_mono key m store hm⟩
  have hne : ¬(mark_as_sent key (mark_as_sent key store).store).claimed = true := by
    rw [mark_as_sent_claimed_iff]
    exact fun hn => hn hmem
  simpa using hne

/-- Witness for C4 at a concrete input: a fresh claim followed by a
failing delivery (`Except.error ()`) still consumes the slot. -/
theorem claimed_slot_stays_consumed_witness :
    ((mark_as_sent ("fixed_8_0") (Control.mk (some ("2024-01-01")) [] [])).claimed = true) ∧
    ("fixed_8_0" : String) ∈ (slotBody (fun _ => Except.error ()) ("fixed_8_0") true
      (Control.mk (some ("2024-01-01")) [] [], [])).1.sent ∧
    (mark_as_sent ("fixed_8_0") (slotBody (fun _ => Except.error ()) ("fixed_8_0") true
      (Control.mk (some ("2024-01-01")) [] [], [])).1).claimed = false :=
  ⟨by decide,
   (claimed_slot_stays_consumed _ _ _ _ (by decide)).1,
   (claimed_slot_stays_consumed _ _ _ _ (by decide)).2.1⟩

/-- C7: one tick's slot evaluation is isolated per slot.  The control
store after a tick does not depend on the delivery oracle at all (so a
failing slot never prevents later claims); every due fixed slot and every
due random slot ends up claimed whatever the oracle does; and the same
holds across any number of subsequent ticks. -/
theorem tick_slot_isolation (randint : Nat → Nat → Nat)
    (d d' : String → Except Unit LogEntry) (today_str : String)
    (current_hm : Nat × Nat) (store : Control) (log log' : List LogEntry) :
    (scheduler_tick randint d today_str current_hm store log).1 =
      (scheduler_tick randint d' today_str current_hm store log').1 ∧
    (∀ schedule ∈ FIXED_SCHEDULES, current_hm = schedule.time →
      fixedKey schedule.time ∈
        (scheduler_tick randint d today_str current_hm store log).1.sent) ∧
    (∀ rt ∈ (ensureToday randint today_str store).random_times, current_hm = rt →
      randomKey rt ∈
        (scheduler_tick randint d today_str current_hm store log).1.sent) ∧
    (∀ inputs : List (String × (Nat × Nat)),
      (run_ticks randint d inputs store log).1 =
        (run_ticks randint d' inputs store log').1) := by
  refine ⟨?_, ?_, ?_, ?_⟩
  · rw [scheduler_tick_fst, scheduler_tick_fst]
  · intro schedule hs hdue
    rw [scheduler_tick_fst]
    simp only [tickControl]
    apply foldl_claimStep_mono
    exact foldl_claimStep_mem (fun s : FixedSchedule => fixedKey s.time)
      (fun s => current_hm == s.time) FIXED_SCHEDULES _ schedule hs (by simp [hdue])
  · intro rt hrt hdue
    rw [scheduler_tick_fst]
    simp only [tickControl]
    rw [foldl_claimStep_random_times]
    exact foldl_claimStep_mem randomKey (fun rt => current_hm == rt) _ _ rt hrt
      (by simp [hdue])
  · intro inputs
    rw [run_ticks_fst, run_ticks_fst]

/-- A concrete delivery result, used by witnesses. -/
def sample_entry : LogEntry :=
  ⟨("2024-01-01 08:00:00"), ("fixed"), ("cabeça"), ("mensagem"), false⟩

/-- Witness for C7 at a concrete input: at 08:00 on a fresh day, the head
slot is claimed whether delivery throws or succeeds, and the resulting
control store is identical under the two oracles. -/
theorem tick_slot_isolation_witness :
    (scheduler_tick (fun lo _ => lo) (fun _ => Except.error ()) ("2024-01-01") (8, 0)
        (Control.mk none [] []) []).1 =
      (scheduler_tick (fun lo _ => lo) (fun _ => Except.ok sample_entry) ("2024-01-01") (8, 0)
        (Control.mk none [] []) []).1 ∧
    ((⟨(8, 0), ("cabeça"), ("intenção")⟩ : FixedSchedule) ∈ FIXED_SCHEDULES) ∧
    fixedKey (8, 0) ∈
      (scheduler_tick (fun lo _ => lo) (fun _ => Except.error ()) ("2024-01-01") (8, 0)
        (Control.mk none [] []) []).1.sent :=
  ⟨(tick_slot_isolation (fun lo _ => lo) (fun _ => Except.error ())
      (fun _ => Except.ok sample_entry) ("2024-01-01") (8, 0) (Control.mk none [] []) [] []).1,
   by decide,
   (tick_slot_isolation (fun lo _ => lo) (fun _ => Except.error ())
      (fun _ => Except.ok sample_entry) ("2024-01-01") (8, 0) (Control.mk none [] []) [] []).2.1
     ⟨(8, 0), ("cabeça"), ("intenção")⟩ (by decide) rfl⟩

theorem scheduler_log_append_le (log : List LogEntry) (e : LogEntry) :
    (scheduler_log_append log e).length ≤ 20 := by
  simp only [scheduler_log_append, lastN, List.length_drop, List.length_append]
  omega

/-- Counterexample to C8 as stated: the manual-trigger path appends with
no eviction, so 21 manual sends in one session push the in-session log
past the scheduler path's bound of 20. -/
theorem manual_append_exceeds_bound :
    20 < (List.foldl manual_log_append ([] : List LogEntry)
      (List.replicate 21 sample_entry)).length := by decide

/-- C8 (amended): only the scheduler tick path is bounded — a
scheduler-path append always leaves at most 20 entries (oldest evicted),
and any run of scheduler-path appends keeps the log within
`max (initial length) 20`; the manual-trigger path appends without
eviction and can exceed the bound. -/
theorem scheduler_log_bounded :
    (∀ (log : List LogEntry) (e : LogEntry), (scheduler_log_append log e).length ≤ 20) ∧
    (∀ (entries : List LogEntry) (log : List LogEntry),
      (List.foldl scheduler_log_append log entries).length ≤ max log.length 20) := by
  refine ⟨scheduler_log_append_le, ?_⟩
  intro entries
  induction entries with
  | nil => intro log; simp
  | cons e es ih =>
    intro log
    rw [List.foldl_cons]
    have h1 := ih (scheduler_log_append log e)
    have h2 := scheduler_log_append_le log e
    omega

/-- Pushover's message limit (src/app.py line 283). -/
def MAX_CHARS : Nat := 1024

/-- Python `str.rfind(c)` restricted to a single character: highest index
holding `c`, or `-1` (modelled below) when absent. -/
def pyRfind (c : Char) (l : List Char) : Option Nat :=
  match l.reverse.findIdx? (fun x => x == c) with
  | none => none
  | some j => some (l.length - 1 - j)

def pyRfindInt (c : Char) (l : List Char) : Int :=
  match pyRfind c l with
  | none => -1
  | some i => (i : Int)

/-- ASCII whitespace stripped by Python `str.rstrip()`. -/
def pyIsSpace (c : Char) : Bool :=
  c == ' ' || c == '\t' || c == '\n' || c == '\r' || c == '\x0b' || c == '\x0c'

def pyRstrip (l : List Char) : List Char :=
  (l.reverse.dropWhile pyIsSpace).reverse

/-- The truncation at the top of `send_pushover` (src/app.py lines
283-291): messages over 1024 characters are cut at the last period of the
first 1024 characters when that period sits past half the limit, and
otherwise hard-cut to the first 1024 characters, right-stripped, with an
appended `…` character.  A Python string is modelled as its list of code
points; `message[:n]` is `take n` and slice-plus-append is list append. -/
def send_pushover_truncation (message : List Char) : List Char :=
  if message.length > MAX_CHARS then
    let truncated := message.take MAX_CHARS
    let last_period : Int := pyRfindInt '.' truncated
    if last_period > (MAX_CHARS : Int) / 2 then
      truncated.take (last_period + 1).toNat
    else
      pyRstrip truncated ++ ['…']
  else message

set_option maxRecDepth 100000 in
/-- C3, behaviour of the code at the failing input: a 1200-character
message of `a`s (no period, no trailing whitespace) is hard-cut to the
first 1024 characters plus the appended ellipsis — 1025 characters in
total, one more than the claimed exactly-1024 result and one more than the
Pushover limit the function's own docstring states.  The sentence-boundary
branch itself matches the claim: with the last period at index 600 the
result is the first 601 characters, ending in that period. -/
theorem send_pushover_truncation_bug :
    (send_pushover_truncation (List.replicate 1200 'a')).length = 1025 ∧
    send_pushover_truncation (List.replicate 1200 'a') =
      List.replicate 1024 'a' ++ ['…'] ∧
    send_pushover_truncation
        (List.replicate 600 'a' ++ ['.'] ++ List.replicate 599 'b') =
      List.replicate 600 'a' ++ ['.'] := by
  refine ⟨by decide, by decide, by decide⟩

theorem string_data_append (a b : String) : (a ++ b).data = a.data ++ b.data := by
  cases a; cases b; rfl

theorem randomKey_data (a b : Nat) :
    (randomKey (a, b)).data =
      'r' :: 'a' :: 'n' :: 'd' :: 'o' :: 'm' :: '_' ::
        ((toString a).data ++ '_' :: (toString b).data) := by
  simp [randomKey, string_data_append]

theorem fixedKey_data (a b : Nat) :
    (fixedKey (a, b)).data =
      'f' :: 'i' :: 'x' :: 'e' :: 'd' :: '_' ::
        ((toString a).data ++ '_' :: (toString b).data) := by
  simp [fixedKey, string_data_append]

theorem fixedKey_ne_randomKey (a b c d : Nat) : fixedKey (a, b) ≠ randomKey (c, d) := by
  intro h
  have h2 : (fixedKey (a, b)).data = (randomKey (c, d)).data := by rw [h]
  rw [fixedKey_data, randomKey_data] at h2
  exact absurd (List.cons.inj h2).1 (by decide)

theorem randomKey_ne_of_windows (a b c d : Nat) (ha9 : 9 ≤ a) (ha10 : a ≤ 10)
    (hc14 : 14 ≤ c) (hc18 : c ≤ 18) : randomKey (a, b) ≠ randomKey (c, d) := by
  intro h
  have h2 : (randomKey (a, b)).data.get? 8 = (randomKey (c, d)).data.get? 8 := by rw [h]
  rw [randomKey_data, randomKey_data] at h2
  interval_cases a <;> interval_cases c <;>
    simp only [show (toString (9 : Nat)).data = ['9'] from rfl,
      show (toString (10 : Nat)).data = ['1', '0'] from rfl,
      show (toString (14 : Nat)).data = ['1', '4'] from rfl,
      show (toString (15 : Nat)).data = ['1', '5'] from rfl,
      show (toString (16 : Nat)).data = ['1', '6'] from rfl,
      show (toString (17 : Nat)).data = ['1', '7'] from rfl,
      show (toString (18 : Nat)).data = ['1', '8'] from rfl,
      List.cons_append, List.nil_append, List.get?] at h2 <;>
    exact absurd h2 (by decide)

/-- C10: on any day, the five slot keys — the three fixed keys and the two
keys built from the day's random draws — are pairwise distinct: the fixed
keys carry distinct clock times, a random key never equals a fixed key,
and the two random windows are disjoint, so the two random hours differ. -/
theorem slot_keys_pairwise_distinct (randint : Nat → Nat → Nat)
    (hr : RandintSpec randint) :
    List.Pairwise (fun a b => a ≠ b)
      (FIXED_SCHEDULES.map (fun s => fixedKey s.time) ++
        (generate_random_times_for_today randint).map randomKey) := by
  have h1 := hr 540 659 (by norm_num)
  have h2 := hr 840 1139 (by norm_num)
  have hh1a : 9 ≤ randint 540 659 / 60 := by omega
  have hh1b : randint 540 659 / 60 ≤ 10 := by omega
  have hh2a : 14 ≤ randint 840 1139 / 60 := by omega
  have hh2b : randint 840 1139 / 60 ≤ 18 := by omega
  rw [generate_random_times_eval]
  simp only [FIXED_SCHEDULES, List.map, List.cons_append, List.nil_append]
  refine List.Pairwise.cons ?_ (List.Pairwise.cons ?_ (List.Pairwise.cons ?_
    (List.Pairwise.cons ?_ (List.Pairwise.cons (by simp) List.Pairwise.nil))))
  · intro b hb
    simp only [List.mem_cons, List.not_mem_nil, or_false] at hb
    rcases hb with rfl | rfl | rfl | rfl
    · decide
    · decide
    · exact fixedKey_ne_randomKey _ _ _ _
    · exact fixedKey_ne_randomKey _ _ _ _
  · intro b hb
    simp only [List.mem_cons, List.not_mem_nil, or_false] at hb
    rcases hb with rfl | rfl | rfl
    · decide
    · exact fixedKey_ne_randomKey _ _ _ _
    · exact fixedKey_ne_randomKey _ _ _ _
  · intro b hb
    simp only [List.mem_cons, List.not_mem_nil, or_false] at hb
    rcases hb with rfl | rfl
    · exact fixedKey_ne_randomKey _ _ _ _
    · exact fixedKey_ne_randomKey _ _ _ _
  · intro b hb
    simp only [List.mem_cons, List.not_mem_nil, or_false] at hb
    rcases hb with rfl
    exact randomKey_ne_of_windows _ _ _ _ hh1a hh1b hh2a hh2b

/-- Witness for C10 at a concrete input: the left-endpoint draw yields the
keys fixed_8_0, fixed_12_0, fixed_20_0, random_9_0, random_14_0, pairwise
distinct. -/
theorem slot_keys_pairwise_distinct_witness :
    RandintSpec (fun lo _ => lo) ∧
    List.Pairwise (fun a b => a ≠ b)
      (FIXED_SCHEDULES.map (fun s => fixedKey s.time) ++
        (generate_random_times_for_today (fun lo _ => lo)).map randomKey) :=
  ⟨fun lo _ h => ⟨Nat.le_refl lo, h⟩,
   slot_keys_pairwise_distinct _ (fun lo _ h => ⟨Nat.le_refl lo, h⟩)⟩

end Rosacruz
